import Mathlib

/-!
Shallow embedding of `edgelet/docker-mri/src/runtime.rs` (the Docker module
runtime adapter of the iotedge edgelet): environment merging, network
attachment, registry-credential encoding, the validation guards of the
registry and runtime operations, and the `list()` descriptor-assembly
pipeline.  Rust `HashMap`s are modelled as association lists whose `insert`
overwrites the value of an existing key (the extensional behaviour of
`HashMap::insert` / `HashMap::extend`); iteration order of a `HashMap` is
unspecified in Rust, and the claims below are order-independent.  Each
asynchronous operation is modelled as the pair of the list of engine
requests it constructs and its result.
-/

set_option autoImplicit false

/-- Error taxonomy of the adapter (from `error.rs` via the spec's §7):
validation failures, engine/docker failures, serialization failures. -/
inductive Error where
  | validation
  | docker
  | serialization
  deriving DecidableEq, Repr

/-- `WAIT_BEFORE_KILL_SECONDS` from `runtime.rs` line 24. -/
def WAIT_BEFORE_KILL_SECONDS : Int := 10

/-- Modelled from the spec: the `ensure_not_empty!` / `fensure_not_empty!`
macros of `edgelet_utils` (not under `src/`) validate that a name or id is
non-empty after trimming whitespace, raising a ValidationError otherwise.
A string is empty after trimming exactly when all its characters are
whitespace. -/
def isEmptyAfterTrim (s : String) : Bool :=
  s.data.all (fun c => c.isWhitespace)

/-- First-match lookup in an association list. -/
def alookup {V : Type} : List (String × V) → String → Option V
  | [], _ => none
  | p :: ps, k => if p.1 = k then some p.2 else alookup ps k

/-- `HashMap::insert` on the association-list model: replace the value of
the first pair carrying the key, or append the pair if the key is absent. -/
def hmInsert {V : Type} (m : List (String × V)) (k : String) (v : V) :
    List (String × V) :=
  match m with
  | [] => [(k, v)]
  | p :: ps => if p.1 = k then (k, v) :: ps else p :: hmInsert ps k v

/-- `HashMap::contains_key` on the association-list model. -/
def containsKey {V : Type} (m : List (String × V)) (k : String) : Bool :=
  m.any (fun p => p.1 = k)

/-- `s.splitn(2, '=')` on the character list of an environment entry: the
part before the first `'='` and the part after it (the whole input and `""`
when there is no `'='`), as in `merge_env`'s
`tokens.nth(0).map(|key| (key, tokens.nth(0).unwrap_or("")))`. -/
def splitFirstEq : List Char → List Char × List Char
  | [] => ([], [])
  | c :: cs =>
    if c = '=' then ([], cs)
    else
      let r := splitFirstEq cs
      (c :: r.1, r.2)

/-- Parse one `"KEY=VALUE"` entry of a current-environment list: key is the
part before the first `'='`, value the rest (`""` when there is no `'='`). -/
def parseEnvEntry (s : String) : String × String :=
  let r := splitFirstEq s.data
  (⟨r.1⟩, ⟨r.2⟩)

/-- `HashMap::extend`: repeated `insert`, so a later insertion overwrites
the value of a colliding key. -/
def hmExtend {V : Type} (m : List (String × V)) (es : List (String × V)) :
    List (String × V) :=
  es.foldl (fun m p => hmInsert m p.1 p.2) m

/-- The merged environment map built inside
`DockerModuleRuntime::merge_env`: start from an empty map, extend it with
`new_env`, then (when present) extend it with the parsed entries of
`cur_env`. -/
def DockerModuleRuntime.mergedEnvMap (cur_env : Option (List String))
    (new_env : List (String × String)) : List (String × String) :=
  let merged : List (String × String) := hmExtend [] new_env
  match cur_env with
  | none => merged
  | some env => hmExtend merged (env.map parseEnvEntry)

/-- `DockerModuleRuntime::merge_env` (runtime.rs lines 68-88): build the
merged map, then format every entry back to `"KEY=VALUE"`. -/
def DockerModuleRuntime.merge_env (cur_env : Option (List String))
    (new_env : List (String × String)) : List String :=
  (DockerModuleRuntime.mergedEnvMap cur_env new_env).map
    (fun p => p.1 ++ "=" ++ p.2)

/-- `EndpointSettings` from the generated docker models (not under `src/`);
its contents are opaque to the adapter, modelled as a field list.
`EndpointSettings.new` is the default value `EndpointSettings::new()`. -/
structure EndpointSettings where
  fields : List (String × String) := []
  deriving DecidableEq, Repr

def EndpointSettings.new : EndpointSettings := {}

/-- `ContainerCreateBodyNetworkingConfig` from the generated docker models:
an optional endpoints mapping from network id to endpoint settings. -/
structure ContainerCreateBodyNetworkingConfig where
  endpoints_config : Option (List (String × EndpointSettings)) := none
  deriving DecidableEq, Repr

def ContainerCreateBodyNetworkingConfig.new :
    ContainerCreateBodyNetworkingConfig := {}

def ContainerCreateBodyNetworkingConfig.with_endpoints_config
    (c : ContainerCreateBodyNetworkingConfig)
    (e : List (String × EndpointSettings)) :
    ContainerCreateBodyNetworkingConfig :=
  { c with endpoints_config := some e }

/-- `ContainerCreateBody` from the generated docker models, restricted to
the fields `runtime.rs` touches: image, environment list, networking
config, and labels. -/
structure ContainerCreateBody where
  image : Option String := none
  env : Option (List String) := none
  networking_config : Option ContainerCreateBodyNetworkingConfig := none
  labels : Option (List (String × String)) := none
  deriving DecidableEq, Repr

def ContainerCreateBody.new : ContainerCreateBody := {}

def ContainerCreateBody.with_image (b : ContainerCreateBody) (img : String) :
    ContainerCreateBody :=
  { b with image := some img }

def ContainerCreateBody.with_env (b : ContainerCreateBody)
    (e : List String) : ContainerCreateBody :=
  { b with env := some e }

def ContainerCreateBody.with_networking_config (b : ContainerCreateBody)
    (n : ContainerCreateBodyNetworkingConfig) : ContainerCreateBody :=
  { b with networking_config := some n }

def ContainerCreateBody.with_labels (b : ContainerCreateBody)
    (ls : List (String × String)) : ContainerCreateBody :=
  { b with labels := some ls }

/-- `DockerConfig` (config.rs, not under `src/`): an image reference plus
engine-specific create options.  `clone_create_options` (a serde-based deep
copy) is modelled as reading the value, since the embedding is pure. -/
structure DockerConfig where
  image : String
  create_options : ContainerCreateBody
  deriving DecidableEq, Repr

/-- `ModuleSpec` from `edgelet_core` (not under `src/`), as used by
`create`: name, module-type tag, config, and desired environment map. -/
structure ModuleSpec where
  name : String
  type_ : String
  config : DockerConfig
  env : List (String × String)
  deriving DecidableEq, Repr

/-- Modelled from the spec: `MODULE_TYPE` in `module.rs` (not under
`src/`) is the adapter's supported docker module-type tag. -/
def DOCKER_MODULE_TYPE : String := "docker"

/-- One request issued to the container engine.  Boolean and integer
parameters are recorded positionally as passed at each call site in
`runtime.rs`; their names live in the generated docker bindings (outside
`src/`).  In the engine's API the container-delete flags are, in order,
volumes/force/link and the image-delete flags force/noprune. -/
inductive EngineCall where
  | imageCreate (name : String) (registryCreds : String)
  | imageDelete (name : String) (flag1 flag2 : Bool)
  | containerCreate (body : ContainerCreateBody) (name : String)
  | containerStart (id : String)
  | containerStop (id : String) (waitSeconds : Int)
  | containerRestart (id : String) (waitSeconds : Int)
  | containerDelete (id : String) (flag1 flag2 flag3 : Bool)
  | containerList (all : Bool) (limit : Int) (size : Bool) (filters : String)
  deriving DecidableEq, Repr

/-- `AuthConfig` from the generated docker models (not under `src/`):
optional username/password/email/serveraddress, each omitted from the
serialized JSON when unset. -/
structure AuthConfig where
  username : Option String := none
  password : Option String := none
  email : Option String := none
  serveraddress : Option String := none
  deriving DecidableEq, Repr

def AuthConfig.new : AuthConfig := {}

def AuthConfig.set_username (a : AuthConfig) (v : String) : AuthConfig :=
  { a with username := some v }

def AuthConfig.set_password (a : AuthConfig) (v : String) : AuthConfig :=
  { a with password := some v }

def AuthConfig.set_email (a : AuthConfig) (v : String) : AuthConfig :=
  { a with email := some v }

def AuthConfig.set_serveraddress (a : AuthConfig) (v : String) : AuthConfig :=
  { a with serveraddress := some v }

/-- JSON string escaping (quote and backslash; other characters of the
credential fields pass through unchanged). -/
def jsonEscapeChar (c : Char) : String :=
  if c = '"' then "\\\"" else if c = '\\' then "\\\\" else String.singleton c

def jsonStr (s : String) : String :=
  "\"" ++ String.join (s.data.map jsonEscapeChar) ++ "\""

/-- The key/value fields present on an `AuthConfig`, in declaration order;
serde's `skip_serializing_if = "Option::is_none"` omits the unset ones. -/
def AuthConfig.presentFields (a : AuthConfig) : List (String × String) :=
  (a.username.map (fun v => ("username", v))).toList ++
  (a.password.map (fun v => ("password", v))).toList ++
  (a.email.map (fun v => ("email", v))).toList ++
  (a.serveraddress.map (fun v => ("serveraddress", v))).toList

def jsonObj (fields : List (String × String)) : String :=
  "\x7b" ++
    String.intercalate "," (fields.map (fun p => jsonStr p.1 ++ ":" ++ jsonStr p.2)) ++
    "\x7d"

/-- `serde_json::to_string` on an `AuthConfig` (modelled from the spec's
"engine's expected form": a JSON object holding exactly the set fields). -/
def AuthConfig.toJson (a : AuthConfig) : String :=
  jsonObj a.presentFields

/-- `DockerRegistryAuthConfig` (runtime.rs lines 98-108): caller-facing
optional registry credentials, every field independently optional. -/
structure DockerRegistryAuthConfig where
  user_name : Option String := none
  password : Option String := none
  email : Option String := none
  server : Option String := none
  deriving DecidableEq, Repr

/-- `serialize_registry_creds` (runtime.rs lines 159-182): absent
credentials become exactly the empty string; present credentials are copied
field-by-field (only the set ones) onto an `AuthConfig` and serialized. -/
def serialize_registry_creds
    (credentials : Option DockerRegistryAuthConfig) : Except Error String :=
  match credentials with
  | none => Except.ok ""
  | some creds =>
      let auth_config := AuthConfig.new
      let auth_config :=
        match creds.user_name with
        | some user_name => auth_config.set_username user_name
        | none => auth_config
      let auth_config :=
        match creds.password with
        | some password => auth_config.set_password password
        | none => auth_config
      let auth_config :=
        match creds.email with
        | some email => auth_config.set_email email
        | none => auth_config
      let auth_config :=
        match creds.server with
        | some server => auth_config.set_serveraddress server
        | none => auth_config
      Except.ok auth_config.toJson

/-- `ModuleRegistry::pull` (runtime.rs lines 190-203): serialize the
credentials, validate the name, then issue `image_create` with the encoded
credentials. -/
def ModuleRegistry.pull (name : String)
    (credentials : Option DockerRegistryAuthConfig) :
    List EngineCall × Except Error Unit :=
  match serialize_registry_creds credentials with
  | Except.error e => ([], Except.error e)
  | Except.ok registry_creds =>
      if isEmptyAfterTrim name then ([], Except.error Error.validation)
      else ([EngineCall.imageCreate name registry_creds], Except.ok ())

/-- `ModuleRegistry::remove` (runtime.rs lines 205-212): validate the name,
then issue `image_delete(name, false, false)`. -/
def ModuleRegistry.remove (name : String) :
    List EngineCall × Except Error Unit :=
  if isEmptyAfterTrim name then ([], Except.error Error.validation)
  else ([EngineCall.imageDelete name false false], Except.ok ())

/-- The network-merge step inlined in `ModuleRuntime::create` (runtime.rs
lines 251-259), the spec's NetworkAttacher: insert the configured network
id with default endpoint settings only when that key is absent. -/
def attachNetwork (endpoints_config : List (String × EndpointSettings))
    (network_id : String) : List (String × EndpointSettings) :=
  if containsKey endpoints_config network_id then endpoints_config
  else hmInsert endpoints_config network_id EndpointSettings.new

/-- `ModuleRuntime::create` (runtime.rs lines 227-272): reject a non-docker
module type, deep-copy the create options, merge environments, set image
and merged env, attach the configured network when one is set, then issue
`container_create`. -/
def ModuleRuntime.create (network_id : Option String) (module : ModuleSpec) :
    List EngineCall × Except Error Unit :=
  if module.type_ = DOCKER_MODULE_TYPE then
    let create_options := module.config.create_options
    let merged_env := DockerModuleRuntime.merge_env create_options.env module.env
    let create_options :=
      (create_options.with_image module.config.image).with_env merged_env
    let create_options :=
      match network_id with
      | none => create_options
      | some nid =>
          let network_config :=
            create_options.networking_config.getD
              ContainerCreateBodyNetworkingConfig.new
          let endpoints_config := network_config.endpoints_config.getD []
          let endpoints_config := attachNetwork endpoints_config nid
          let network_config :=
            network_config.with_endpoints_config endpoints_config
          create_options.with_networking_config network_config
    ([EngineCall.containerCreate create_options module.name], Except.ok ())
  else ([], Except.error Error.validation)

/-- `ModuleRuntime::start` (runtime.rs lines 274-282). -/
def ModuleRuntime.start (id : String) : List EngineCall × Except Error Unit :=
  if isEmptyAfterTrim id then ([], Except.error Error.validation)
  else ([EngineCall.containerStart id], Except.ok ())

/-- `ModuleRuntime::stop` (runtime.rs lines 284-292). -/
def ModuleRuntime.stop (id : String) : List EngineCall × Except Error Unit :=
  if isEmptyAfterTrim id then ([], Except.error Error.validation)
  else ([EngineCall.containerStop id WAIT_BEFORE_KILL_SECONDS], Except.ok ())

/-- `ModuleRuntime::restart` (runtime.rs lines 294-302). -/
def ModuleRuntime.restart (id : String) :
    List EngineCall × Except Error Unit :=
  if isEmptyAfterTrim id then ([], Except.error Error.validation)
  else
    ([EngineCall.containerRestart id WAIT_BEFORE_KILL_SECONDS], Except.ok ())

/-- `ModuleRuntime::remove` (runtime.rs lines 304-312): issue
`container_delete(id, false, true, true)`. -/
def ModuleRuntime.remove (id : String) : List EngineCall × Except Error Unit :=
  if isEmptyAfterTrim id then ([], Except.error Error.validation)
  else ([EngineCall.containerDelete id false true true], Except.ok ())

/-- A raw engine listing record as `list()` reads it: reported image,
labels, and names. -/
structure ContainerSummary where
  image : String
  labels : List (String × String)
  names : List String
  deriving DecidableEq, Repr

/-- `DockerModule` (module.rs, not under `src/`): the typed module
descriptor, a display name plus a Config.  Modelled from the spec: §3's
ModuleDescriptor is display name, Config, and an engine-client handle (the
handle carries no observable state and is not modelled); construction is
total. -/
structure DockerModule where
  name : String
  config : DockerConfig
  deriving DecidableEq, Repr

def DockerModule.new (name : String) (config : DockerConfig) : DockerModule :=
  ⟨name, config⟩

/-- The display-name derivation of `list()` (runtime.rs lines 338-344):
`container.names().iter().nth(0).map(|s| &s[1..]).unwrap_or("Unknown")`.
`&s[1..]` panics when the first reported name is empty (byte index 1 out of
bounds); `none` is that panic branch.  For a non-empty name the model drops
the first character (the engine reports `/`-prefixed names). -/
def deriveName (names : List String) : Option String :=
  match names.head? with
  | none => some "Unknown"
  | some s => if s = "" then none else some (s.drop 1)

/-- The same derivation under the assumption that no reported first name is
empty, where the slicing is total. -/
def deriveNameTotal (names : List String) : String :=
  match names.head? with
  | none => "Unknown"
  | some s => s.drop 1

/-- The `LABELS` ownership-label constant (runtime.rs lines 26-32). -/
def LABELS : List String :=
  ["net.azure-devices.edge.owner=Microsoft.Azure.Devices.Edge.Agent"]

/-- `serde_json::to_string` of the filter map `{"label": LABELS}` built in
`list()`. -/
def listFilters : String :=
  "\x7b" ++ jsonStr "label" ++ ":[" ++
    String.intercalate "," (LABELS.map jsonStr) ++ "]" ++ "\x7d"

/-- The second stage of `list()`'s pipeline: build a `DockerModule` for
every decoded record, in order; a name-derivation panic aborts the whole
computation (`none`), while the stage never otherwise drops a record. -/
def collectModules :
    List (ContainerSummary × DockerConfig) → Option (List DockerModule)
  | [] => some []
  | (c, config) :: rest =>
      match deriveName c.names with
      | none => none
      | some n =>
          (collectModules rest).map (fun ms => DockerModule.new n config :: ms)

/-- `ModuleRuntime::list` (runtime.rs lines 314-357), parameterized by the
raw records the engine returns and by `cfgNew`, which stands for
`DockerConfig::new` (config.rs, not under `src/`).  Modelled from the spec:
the spec states only that deriving a Config from image and labels can fail,
with no failure condition, so the derivation is a parameter.  The first
`flat_map` drops every record whose Config cannot be derived; the second
builds a module for each remaining record.  `none` in the result is the
name-slicing panic. -/
def ModuleRuntime.list (cfgNew : String → ContainerCreateBody → Option DockerConfig)
    (containers : List ContainerSummary) :
    List EngineCall × Option (Except Error (List DockerModule)) :=
  let decoded := containers.filterMap
    (fun c =>
      (cfgNew c.image (ContainerCreateBody.new.with_labels c.labels)).map
        (fun config => (c, config)))
  ([EngineCall.containerList true 0 true listFilters],
    (collectModules decoded).map Except.ok)

/-- A Config derivation that always succeeds, for concrete instances. -/
def cfgAlways : String → ContainerCreateBody → Option DockerConfig :=
  fun image body => some ⟨image, body⟩

/-- A Config derivation that fails exactly on an empty image reference, for
concrete instances exercising the drop path. -/
def cfgNonEmptyImage : String → ContainerCreateBody → Option DockerConfig :=
  fun image body => if image = "" then none else some ⟨image, body⟩

/-! ## Association-list lemmas -/

theorem alookup_hmInsert_self {V : Type} (m : List (String × V)) (k : String)
    (v : V) : alookup (hmInsert m k v) k = some v := by
  induction m with
  | nil => simp [hmInsert, alookup]
  | cons p ps ih =>
    by_cases h : p.1 = k
    · simp [hmInsert, h, alookup]
    · simp [hmInsert, h, alookup, ih]

theorem alookup_hmInsert_ne {V : Type} (m : List (String × V))
    (k k' : String) (v : V) (h : k' ≠ k) :
    alookup (hmInsert m k v) k' = alookup m k' := by
  induction m with
  | nil => simp [hmInsert, alookup, h, Ne.symm h]
  | cons p ps ih =>
    by_cases hp : p.1 = k
    · simp [hmInsert, hp, alookup, h, Ne.symm h]
    · simp [hmInsert, hp, alookup, ih]

theorem alookup_mem {V : Type} (m : List (String × V)) (k : String) (v : V)
    (h : alookup m k = some v) : (k, v) ∈ m := by
  induction m with
  | nil => simp [alookup] at h
  | cons p ps ih =>
    by_cases hp : p.1 = k
    · simp [alookup, hp] at h
      have hpv : (k, v) = p := by
        cases p
        simp_all
      rw [hpv]
      exact List.mem_cons_self _ _
    · simp [alookup, hp] at h
      exact List.mem_cons_of_mem _ (ih h)

theorem alookup_eq_none_of_not_mem {V : Type} (m : List (String × V))
    (k : String) (h : k ∉ m.map Prod.fst) : alookup m k = none := by
  induction m with
  | nil => simp [alookup]
  | cons p ps ih =>
    simp only [List.map_cons, List.mem_cons] at h
    push_neg at h
    have hp : ¬ p.1 = k := fun hpk => h.1 hpk.symm
    simp [alookup, hp, ih h.2]

theorem alookup_eq_of_mem_nodup {V : Type} (m : List (String × V))
    (k : String) (v : V) (hd : (m.map Prod.fst).Nodup) (h : (k, v) ∈ m) :
    alookup m k = some v := by
  induction m with
  | nil => simp at h
  | cons p ps ih =>
    simp only [List.map_cons, List.nodup_cons] at hd
    rcases List.mem_cons.1 h with h1 | h1
    · simp [alookup, ← h1]
    · have hk : p.1 ≠ k := by
        intro hpk
        exact hd.1 (hpk ▸ List.mem_map_of_mem Prod.fst h1)
      simp [alookup, hk, ih hd.2 h1]

theorem mem_keys_hmInsert {V : Type} (m : List (String × V)) (k : String)
    (v : V) (a : String) :
    a ∈ (hmInsert m k v).map Prod.fst ↔ a = k ∨ a ∈ m.map Prod.fst := by
  induction m with
  | nil => simp [hmInsert]
  | cons p ps ih =>
    by_cases h : p.1 = k
    · simp [hmInsert, h]
    · simp [hmInsert, h, ih]
      tauto

theorem containsKey_hmInsert_self {V : Type} (m : List (String × V))
    (k : String) (v : V) : containsKey (hmInsert m k v) k = true := by
  induction m with
  | nil => simp [hmInsert, containsKey]
  | cons p ps ih =>
    by_cases h : p.1 = k
    · simp [hmInsert, h, containsKey]
    · simpa [hmInsert, h, containsKey] using ih

theorem hmInsert_of_not_contains {V : Type} (m : List (String × V))
    (k : String) (v : V) (h : containsKey m k = false) :
    hmInsert m k v = m ++ [(k, v)] := by
  induction m with
  | nil => simp [hmInsert]
  | cons p ps ih =>
    simp only [containsKey, List.any_cons, Bool.or_eq_false_iff,
      decide_eq_false_iff_not] at h
    simp [hmInsert, h.1, ih (by simpa [containsKey] using h.2)]

theorem alookup_hmExtend_not_mem {V : Type} (es m : List (String × V))
    (k : String) (h : k ∉ es.map Prod.fst) :
    alookup (hmExtend m es) k = alookup m k := by
  induction es generalizing m with
  | nil => simp [hmExtend]
  | cons e rest ih =>
    simp only [List.map_cons, List.mem_cons] at h
    push_neg at h
    have : hmExtend m (e :: rest) = hmExtend (hmInsert m e.1 e.2) rest := rfl
    rw [this, ih _ h.2, alookup_hmInsert_ne _ _ _ _ h.1]

theorem alookup_hmExtend_mem_nodup {V : Type} (es m : List (String × V))
    (k : String) (v : V) (hd : (es.map Prod.fst).Nodup) (h : (k, v) ∈ es) :
    alookup (hmExtend m es) k = some v := by
  induction es generalizing m with
  | nil => simp at h
  | cons e rest ih =>
    simp only [List.map_cons, List.nodup_cons] at hd
    have hstep : hmExtend m (e :: rest) = hmExtend (hmInsert m e.1 e.2) rest := rfl
    rcases List.mem_cons.1 h with h1 | h1
    · subst h1
      rw [hstep, alookup_hmExtend_not_mem _ _ _ hd.1, alookup_hmInsert_self]
    · rw [hstep, ih _ hd.2 h1]

theorem mem_keys_hmExtend {V : Type} (es m : List (String × V)) (a : String) :
    a ∈ (hmExtend m es).map Prod.fst ↔
      a ∈ m.map Prod.fst ∨ a ∈ es.map Prod.fst := by
  induction es generalizing m with
  | nil => simp [hmExtend]
  | cons e rest ih =>
    have hstep : hmExtend m (e :: rest) = hmExtend (hmInsert m e.1 e.2) rest := rfl
    rw [hstep, ih, mem_keys_hmInsert]
    simp only [List.map_cons, List.mem_cons]
    tauto

/-! ## Environment-entry parsing lemmas -/

theorem splitFirstEq_fst_no_eq (l : List Char) : '=' ∉ (splitFirstEq l).1 := by
  induction l with
  | nil => simp [splitFirstEq]
  | cons c cs ih =>
    by_cases h : c = '='
    · simp [splitFirstEq, h]
    · simp [splitFirstEq, h, Ne.symm h, ih]

theorem parseEnvEntry_key_no_eq (s : String) :
    '=' ∉ (parseEnvEntry s).1.data :=
  splitFirstEq_fst_no_eq s.data

theorem splitFirstEq_append (k v : List Char) (h : '=' ∉ k) :
    splitFirstEq (k ++ '=' :: v) = (k, v) := by
  induction k with
  | nil => simp [splitFirstEq]
  | cons c cs ih =>
    have hc : ¬ c = '=' := fun hc => h (by rw [hc]; exact List.mem_cons_self _ _)
    simp [splitFirstEq, hc, ih (fun hm => h (List.mem_cons_of_mem _ hm))]

theorem parseEnvEntry_format (k v : String) (h : '=' ∉ k.data) :
    parseEnvEntry (k ++ "=" ++ v) = (k, v) := by
  have hdata : (k ++ "=" ++ v).data = k.data ++ '=' :: v.data := by
    simp [String.data_append]
  unfold parseEnvEntry
  rw [hdata, splitFirstEq_append _ _ h]

/-! ## Descriptor-assembly lemmas -/

theorem collectModules_total (l : List (ContainerSummary × DockerConfig))
    (h : ∀ p ∈ l, p.1.names.head? ≠ some "") :
    collectModules l =
      some (l.map (fun p => DockerModule.new (deriveNameTotal p.1.names) p.2)) := by
  induction l with
  | nil => simp [collectModules]
  | cons p rest ih =>
    obtain ⟨c, config⟩ := p
    have hc := h _ (List.mem_cons_self _ _)
    have hname : deriveName c.names = some (deriveNameTotal c.names) := by
      unfold deriveName deriveNameTotal
      cases hh : c.names.head? with
      | none => rfl
      | some s =>
        have hs : ¬ s = "" := by
          intro e
          exact hc (by rw [hh, e])
        simp [hs]
    simp [collectModules, hname,
      ih (fun q hq => h q (List.mem_cons_of_mem _ hq)), deriveNameTotal]

/-! ## Regression vectors from the repository's own tests -/

example : DockerModuleRuntime.merge_env (some []) [] = [] := by decide

example :
    DockerModuleRuntime.merge_env (some ["k1=v1", "k2=v2"]) [] =
      ["k1=v1", "k2=v2"] := by decide

example :
    DockerModuleRuntime.merge_env (some ["k1=v1", "k2=v2"]) [("k3", "v3")] =
      ["k3=v3", "k1=v1", "k2=v2"] := by decide

example :
    DockerModuleRuntime.merge_env (some ["k1=v1", "k2=v2"])
      [("k2", "v02"), ("k3", "v3")] = ["k2=v2", "k3=v3", "k1=v1"] := by decide

/-! ## C1 -/

/-- C1 (counterexample): the claim says the new mapping wins on key
collision, but `merge_env` extends the merged map with the current list
after the new mapping, so the current-list value survives: merging
`["k2=v2"]` with `{"k2": "v02"}` yields `["k2=v2"]`, and `"k2=v02"` is not
in the result.  The repository's own test `merge_env_extend_replace_new`
asserts exactly this behaviour. -/
theorem merge_env_new_wins_counterexample :
    DockerModuleRuntime.merge_env (some ["k2=v2"]) [("k2", "v02")] =
      ["k2=v2"] ∧
    alookup (DockerModuleRuntime.mergedEnvMap (some ["k2=v2"]) [("k2", "v02")])
      "k2" = some "v2" ∧
    "k2=v02" ∉ DockerModuleRuntime.merge_env (some ["k2=v2"]) [("k2", "v02")] := by
  decide

/-- C1 (amended): for every current list and new mapping (each with
pairwise-distinct keys, as a `HashMap` guarantees), the merged result
assigns to every key of the current list its current-list value — the
current list wins on collision — and a key unique to the new mapping keeps
its new-mapping value; in both cases the formatted `"KEY=VALUE"` entry is
in `merge_env`'s output. -/
theorem merge_env_current_wins (cur : List String)
    (new_env : List (String × String))
    (hn : (new_env.map Prod.fst).Nodup)
    (hc : ((cur.map parseEnvEntry).map Prod.fst).Nodup) :
    (∀ k v, (k, v) ∈ cur.map parseEnvEntry →
      alookup (DockerModuleRuntime.mergedEnvMap (some cur) new_env) k =
        some v ∧
      (k ++ "=" ++ v) ∈ DockerModuleRuntime.merge_env (some cur) new_env) ∧
    (∀ k v, (k, v) ∈ new_env →
      k ∉ (cur.map parseEnvEntry).map Prod.fst →
      alookup (DockerModuleRuntime.mergedEnvMap (some cur) new_env) k =
        some v ∧
      (k ++ "=" ++ v) ∈ DockerModuleRuntime.merge_env (some cur) new_env) := by
  have hmap : DockerModuleRuntime.mergedEnvMap (some cur) new_env =
      hmExtend (hmExtend [] new_env) (cur.map parseEnvEntry) := rfl
  constructor
  · intro k v hkv
    have hl : alookup (DockerModuleRuntime.mergedEnvMap (some cur) new_env) k =
        some v := by
      rw [hmap]
      exact alookup_hmExtend_mem_nodup _ _ _ _ hc hkv
    refine ⟨hl, ?_⟩
    have := List.mem_map_of_mem (fun p : String × String => p.1 ++ "=" ++ p.2)
      (alookup_mem _ _ _ hl)
    simpa [DockerModuleRuntime.merge_env] using this
  · intro k v hkv hnk
    have hl : alookup (DockerModuleRuntime.mergedEnvMap (some cur) new_env) k =
        some v := by
      rw [hmap, alookup_hmExtend_not_mem _ _ _ hnk]
      exact alookup_hmExtend_mem_nodup _ _ _ _ hn hkv
    refine ⟨hl, ?_⟩
    have := List.mem_map_of_mem (fun p : String × String => p.1 ++ "=" ++ p.2)
      (alookup_mem _ _ _ hl)
    simpa [DockerModuleRuntime.merge_env] using this

theorem merge_env_current_wins_witness :
    ((["k1=v1", "k2=v2"].map parseEnvEntry).map Prod.fst).Nodup ∧
    ([("k2", "v02"), ("k3", "v3")].map
      (Prod.fst (α := String) (β := String))).Nodup ∧
    alookup (DockerModuleRuntime.mergedEnvMap (some ["k1=v1", "k2=v2"])
      [("k2", "v02"), ("k3", "v3")]) "k2" = some "v2" ∧
    alookup (DockerModuleRuntime.mergedEnvMap (some ["k1=v1", "k2=v2"])
      [("k2", "v02"), ("k3", "v3")]) "k3" = some "v3" :=
  ⟨by decide, by decide,
    ((merge_env_current_wins ["k1=v1", "k2=v2"] [("k2", "v02"), ("k3", "v3")]
      (by decide) (by decide)).1 "k2" "v2" (by decide)).1,
    ((merge_env_current_wins ["k1=v1", "k2=v2"] [("k2", "v02"), ("k3", "v3")]
      (by decide) (by decide)).2 "k3" "v3" (by decide) (by decide)).1⟩

/-! ## C3 -/

/-- C3 (counterexample): a new-mapping key may itself contain `'='`; the
formatted entry then re-parses to a shorter key, so the output key-set is
not the union of the input key-sets.  With current list absent and new
mapping `{"a=b": "c"}` the output is `["a=b=c"]`, whose key-set is
`{"a"}`, while the union is `{"a=b"}`. -/
theorem merge_env_key_union_counterexample :
    DockerModuleRuntime.merge_env none [("a=b", "c")] = ["a=b=c"] ∧
    (DockerModuleRuntime.merge_env none [("a=b", "c")]).map
      (fun s => (parseEnvEntry s).1) = ["a"] ∧
    "a=b" ∉ (DockerModuleRuntime.merge_env none [("a=b", "c")]).map
      (fun s => (parseEnvEntry s).1) ∧
    "a=b" ∈ [("a=b", "c")].map Prod.fst := by decide

/-- C3 (amended): provided no key of the new mapping contains `'='`, the
set of keys appearing in `merge_env`'s output (the part of each entry
before its first `'='`) equals the union of the key-set of the current
list (parsed the same way; empty when the current list is absent) and the
key-set of the new mapping. -/
theorem merge_env_key_union (cur_env : Option (List String))
    (new_env : List (String × String))
    (h : ∀ p ∈ new_env, '=' ∉ p.1.data) (k : String) :
    k ∈ (DockerModuleRuntime.merge_env cur_env new_env).map
        (fun s => (parseEnvEntry s).1) ↔
      k ∈ ((cur_env.getD []).map parseEnvEntry).map Prod.fst ∨
        k ∈ new_env.map Prod.fst := by
  have hkeys : ∀ a ∈ (DockerModuleRuntime.mergedEnvMap cur_env new_env).map
      Prod.fst, '=' ∉ a.data := by
    intro a ha
    have hnew : ∀ b ∈ new_env.map Prod.fst, '=' ∉ b.data := by
      intro b hb
      obtain ⟨q, hq, rfl⟩ := List.mem_map.1 hb
      exact h q hq
    cases cur_env with
    | none =>
      rw [show DockerModuleRuntime.mergedEnvMap none new_env =
          hmExtend [] new_env from rfl, mem_keys_hmExtend] at ha
      rcases ha with ha | ha
      · simp at ha
      · exact hnew a ha
    | some env =>
      rw [show DockerModuleRuntime.mergedEnvMap (some env) new_env =
          hmExtend (hmExtend [] new_env) (env.map parseEnvEntry) from rfl,
        mem_keys_hmExtend] at ha
      rcases ha with ha | ha
      · rw [mem_keys_hmExtend] at ha
        rcases ha with ha | ha
        · simp at ha
        · exact hnew a ha
      · obtain ⟨q, hq, rfl⟩ := List.mem_map.1 ha
        obtain ⟨s, _, rfl⟩ := List.mem_map.1 hq
        exact parseEnvEntry_key_no_eq s
  have hmain : k ∈ (DockerModuleRuntime.merge_env cur_env new_env).map
      (fun s => (parseEnvEntry s).1) ↔
      k ∈ (DockerModuleRuntime.mergedEnvMap cur_env new_env).map Prod.fst := by
    unfold DockerModuleRuntime.merge_env
    rw [List.map_map]
    constructor
    · intro hmem
      obtain ⟨p, hp, hpk⟩ := List.mem_map.1 hmem
      have hpk' : (parseEnvEntry (p.1 ++ "=" ++ p.2)).1 = k := hpk
      rw [parseEnvEntry_format p.1 p.2
        (hkeys p.1 (List.mem_map_of_mem _ hp))] at hpk'
      exact hpk' ▸ List.mem_map_of_mem _ hp
    · intro hmem
      obtain ⟨p, hp, hpk⟩ := List.mem_map.1 hmem
      refine List.mem_map.2 ⟨p, hp, ?_⟩
      show (parseEnvEntry (p.1 ++ "=" ++ p.2)).1 = k
      rw [parseEnvEntry_format p.1 p.2
        (hkeys p.1 (List.mem_map_of_mem _ hp))]
      exact hpk
  rw [hmain]
  cases cur_env with
  | none =>
    rw [show DockerModuleRuntime.mergedEnvMap none new_env =
        hmExtend [] new_env from rfl, mem_keys_hmExtend]
    simp
  | some env =>
    rw [show DockerModuleRuntime.mergedEnvMap (some env) new_env =
        hmExtend (hmExtend [] new_env) (env.map parseEnvEntry) from rfl,
      mem_keys_hmExtend, mem_keys_hmExtend]
    simp only [Option.getD_some, List.map_nil, List.not_mem_nil, false_or]
    tauto

theorem merge_env_key_union_witness :
    (∀ p ∈ [("k2", "v02"), ("k3", "v3")], '=' ∉ p.1.data) ∧
    ("k3" ∈ (DockerModuleRuntime.merge_env (some ["k1=v1"])
        [("k2", "v02"), ("k3", "v3")]).map (fun s => (parseEnvEntry s).1) ↔
      "k3" ∈ (((some ["k1=v1"]).getD []).map parseEnvEntry).map Prod.fst ∨
        "k3" ∈ [("k2", "v02"), ("k3", "v3")].map Prod.fst) :=
  ⟨by decide,
    merge_env_key_union (some ["k1=v1"]) [("k2", "v02"), ("k3", "v3")]
      (by decide) "k3"⟩

/-! ## C4 -/

/-- C4: the network-merge step of `create` is idempotent and
non-destructive: it leaves the endpoints mapping unchanged when the
configured network id is already a key, appends the id with default
endpoint settings when it is absent, keeps every pre-existing entry, and
applying it twice equals applying it once. -/
theorem attachNetwork_idempotent_nondestructive
    (e : List (String × EndpointSettings)) (nid : String) :
    attachNetwork (attachNetwork e nid) nid = attachNetwork e nid ∧
    (∀ p ∈ e, p ∈ attachNetwork e nid) ∧
    (containsKey e nid = true → attachNetwork e nid = e) ∧
    (containsKey e nid = false →
      attachNetwork e nid = e ++ [(nid, EndpointSettings.new)]) := by
  refine ⟨?_, ?_, ?_, ?_⟩
  · by_cases h : containsKey e nid = true
    · simp [attachNetwork, h]
    · have h' : containsKey e nid = false := by
        revert h
        cases containsKey e nid <;> simp
      simp [attachNetwork, h', containsKey_hmInsert_self]
  · intro p hp
    by_cases h : containsKey e nid = true
    · simpa [attachNetwork, h] using hp
    · have h' : containsKey e nid = false := by
        revert h
        cases containsKey e nid <;> simp
      rw [attachNetwork, h']
      simp only [Bool.false_eq_true, if_false]
      rw [hmInsert_of_not_contains _ _ _ h']
      exact List.mem_append_left _ hp
  · intro h
    simp [attachNetwork, h]
  · intro h
    rw [attachNetwork, h]
    simp only [Bool.false_eq_true, if_false]
    exact hmInsert_of_not_contains _ _ _ h

theorem attachNetwork_witness :
    containsKey ([("bridge", EndpointSettings.new)]) "azure-iot-edge" =
      false ∧
    attachNetwork [("bridge", EndpointSettings.new)] "azure-iot-edge" =
      [("bridge", EndpointSettings.new)] ++
        [("azure-iot-edge", EndpointSettings.new)] ∧
    ("bridge", EndpointSettings.new) ∈
      attachNetwork [("bridge", EndpointSettings.new)] "azure-iot-edge" ∧
    attachNetwork
        (attachNetwork [("bridge", EndpointSettings.new)] "azure-iot-edge")
        "azure-iot-edge" =
      attachNetwork [("bridge", EndpointSettings.new)] "azure-iot-edge" :=
  ⟨by decide,
    (attachNetwork_idempotent_nondestructive
      [("bridge", EndpointSettings.new)] "azure-iot-edge").2.2.2 (by decide),
    (attachNetwork_idempotent_nondestructive
      [("bridge", EndpointSettings.new)] "azure-iot-edge").2.1 _ (by decide),
    (attachNetwork_idempotent_nondestructive
      [("bridge", EndpointSettings.new)] "azure-iot-edge").1⟩

/-! ## C2 -/

/-- C2 (counterexample): `remove` issues
`container_delete(id, false, true, true)` — the first positional flag is
`false`, so the three delete flags are not all set as the claim states. -/
theorem remove_flags_counterexample :
    ModuleRuntime.remove "m1" =
      ([EngineCall.containerDelete "m1" false true true], Except.ok ()) ∧
    (ModuleRuntime.remove "m1").1 ≠
      [EngineCall.containerDelete "m1" true true true] := by
  refine ⟨rfl, ?_⟩
  decide

/-- C2 (amended): `remove(id)`, for every id non-empty after trimming,
issues exactly one engine container-delete request whose positional flags
are `(false, true, true)`: in the engine API's flag order
(volumes, force, link), volume cleanup is not requested while force-stop
and link cleanup are. -/
theorem remove_issues_delete (id : String)
    (h : isEmptyAfterTrim id = false) :
    ModuleRuntime.remove id =
      ([EngineCall.containerDelete id false true true], Except.ok ()) := by
  simp [ModuleRuntime.remove, h]

theorem remove_issues_delete_witness :
    isEmptyAfterTrim "edgeAgent" = false ∧
    ModuleRuntime.remove "edgeAgent" =
      ([EngineCall.containerDelete "edgeAgent" false true true],
        Except.ok ()) :=
  ⟨by decide, remove_issues_delete "edgeAgent" (by decide)⟩

/-! ## C6 -/

/-- C6: `create` on a spec whose module-type tag differs from the
supported docker type fails with a ValidationError and issues zero engine
calls, whatever the configured network id. -/
theorem create_rejects_wrong_type (network_id : Option String)
    (module : ModuleSpec) (h : module.type_ ≠ DOCKER_MODULE_TYPE) :
    ModuleRuntime.create network_id module =
      ([], Except.error Error.validation) := by
  simp [ModuleRuntime.create, h]

theorem create_rejects_wrong_type_witness :
    (ModuleSpec.mk "m1" "not_docker"
        (DockerConfig.mk "nginx:latest" ContainerCreateBody.new) []).type_ ≠
      DOCKER_MODULE_TYPE ∧
    ModuleRuntime.create none
        (ModuleSpec.mk "m1" "not_docker"
          (DockerConfig.mk "nginx:latest" ContainerCreateBody.new) []) =
      ([], Except.error Error.validation) :=
  ⟨by decide,
    create_rejects_wrong_type none
      (ModuleSpec.mk "m1" "not_docker"
        (DockerConfig.mk "nginx:latest" ContainerCreateBody.new) [])
      (by decide)⟩

/-! ## C7 -/

theorem serialize_registry_creds_isOk
    (credentials : Option DockerRegistryAuthConfig) :
    ∃ s, serialize_registry_creds credentials = Except.ok s := by
  cases credentials <;> exact ⟨_, rfl⟩

/-- C7: `pull`, `remove_image`, `start`, `stop`, `restart` and `remove`
each fail with a ValidationError and issue zero engine calls when the name
or id is empty after whitespace trimming; all six use the same check
(`isEmptyAfterTrim`, the shared `ensure_not_empty` guard). -/
theorem ops_validate_empty (name : String)
    (credentials : Option DockerRegistryAuthConfig)
    (h : isEmptyAfterTrim name = true) :
    ModuleRegistry.pull name credentials =
      ([], Except.error Error.validation) ∧
    ModuleRegistry.remove name = ([], Except.error Error.validation) ∧
    ModuleRuntime.start name = ([], Except.error Error.validation) ∧
    ModuleRuntime.stop name = ([], Except.error Error.validation) ∧
    ModuleRuntime.restart name = ([], Except.error Error.validation) ∧
    ModuleRuntime.remove name = ([], Except.error Error.validation) := by
  obtain ⟨s, hs⟩ := serialize_registry_creds_isOk credentials
  exact ⟨by simp [ModuleRegistry.pull, hs, h],
    by simp [ModuleRegistry.remove, h],
    by simp [ModuleRuntime.start, h],
    by simp [ModuleRuntime.stop, h],
    by simp [ModuleRuntime.restart, h],
    by simp [ModuleRuntime.remove, h]⟩

theorem ops_validate_empty_witness :
    isEmptyAfterTrim "     " = true ∧
    ModuleRegistry.pull "     " none = ([], Except.error Error.validation) ∧
    ModuleRegistry.remove "     " = ([], Except.error Error.validation) ∧
    ModuleRuntime.start "     " = ([], Except.error Error.validation) ∧
    ModuleRuntime.stop "     " = ([], Except.error Error.validation) ∧
    ModuleRuntime.restart "     " = ([], Except.error Error.validation) ∧
    ModuleRuntime.remove "     " = ([], Except.error Error.validation) :=
  ⟨by decide, ops_validate_empty "     " none (by decide)⟩

/-! ## C9 -/

/-- C9: for every id non-empty after trimming, `stop` and `restart` pass
the fixed grace period `WAIT_BEFORE_KILL_SECONDS`, which is exactly 10
seconds, as the wait parameter of the engine stop/restart request. -/
theorem stop_restart_grace_period (id : String)
    (h : isEmptyAfterTrim id = false) :
    ModuleRuntime.stop id =
      ([EngineCall.containerStop id WAIT_BEFORE_KILL_SECONDS],
        Except.ok ()) ∧
    ModuleRuntime.restart id =
      ([EngineCall.containerRestart id WAIT_BEFORE_KILL_SECONDS],
        Except.ok ()) ∧
    WAIT_BEFORE_KILL_SECONDS = 10 :=
  ⟨by simp [ModuleRuntime.stop, h], by simp [ModuleRuntime.restart, h], rfl⟩

theorem stop_restart_grace_period_witness :
    isEmptyAfterTrim "edgeHub" = false ∧
    ModuleRuntime.stop "edgeHub" =
      ([EngineCall.containerStop "edgeHub" WAIT_BEFORE_KILL_SECONDS],
        Except.ok ()) ∧
    ModuleRuntime.restart "edgeHub" =
      ([EngineCall.containerRestart "edgeHub" WAIT_BEFORE_KILL_SECONDS],
        Except.ok ()) ∧
    WAIT_BEFORE_KILL_SECONDS = 10 :=
  ⟨by decide, stop_restart_grace_period "edgeHub" (by decide)⟩

/-! ## C8 -/

/-- C8: `serialize_registry_creds` returns exactly the empty string when
credentials are absent, and for present credentials it serializes a JSON
object whose keys are exactly those of the fields that are set — every
unset field is omitted. -/
theorem serialize_creds_shape :
    serialize_registry_creds none = Except.ok "" ∧
    ∀ creds : DockerRegistryAuthConfig,
      ∃ fs : List (String × String),
        serialize_registry_creds (some creds) = Except.ok (jsonObj fs) ∧
        fs.map Prod.fst =
          (if creds.user_name.isSome then ["username"] else []) ++
          (if creds.password.isSome then ["password"] else []) ++
          (if creds.email.isSome then ["email"] else []) ++
          (if creds.server.isSome then ["serveraddress"] else []) := by
  refine ⟨rfl, fun creds => ?_⟩
  rcases creds with ⟨u, p, e, s⟩
  cases u <;> cases p <;> cases e <;> cases s <;> exact ⟨_, rfl, rfl⟩

/-! ## C5 -/

/-- C5: provided no listed record reports an empty first name (so the
name-slicing step cannot panic, see C10), `list()` succeeds, drops exactly
the records from which no Config can be derived, and returns one
descriptor — derived display name plus derived Config — for every
remaining record, while issuing the single label-filtered container-list
request. -/
theorem list_drops_undecodable
    (cfgNew : String → ContainerCreateBody → Option DockerConfig)
    (containers : List ContainerSummary)
    (h : ∀ c ∈ containers, c.names.head? ≠ some "") :
    (ModuleRuntime.list cfgNew containers).2 =
      some (Except.ok
        ((containers.filterMap (fun c =>
          (cfgNew c.image (ContainerCreateBody.new.with_labels c.labels)).map
            (fun config => (c, config)))).map
          (fun p => DockerModule.new (deriveNameTotal p.1.names) p.2))) ∧
    (ModuleRuntime.list cfgNew containers).1 =
      [EngineCall.containerList true 0 true listFilters] := by
  constructor
  · have hdec : ∀ p ∈ containers.filterMap (fun c =>
        (cfgNew c.image (ContainerCreateBody.new.with_labels c.labels)).map
          (fun config => (c, config))), p.1.names.head? ≠ some "" := by
      intro p hp
      obtain ⟨c, hc, hcp⟩ := List.mem_filterMap.1 hp
      rcases ho : cfgNew c.image (ContainerCreateBody.new.with_labels c.labels)
        with _ | cfg <;> rw [ho] at hcp
      · simp at hcp
      · simp at hcp
        rw [← hcp]
        exact h c hc
    show (collectModules (containers.filterMap (fun c =>
      (cfgNew c.image (ContainerCreateBody.new.with_labels c.labels)).map
        (fun config => (c, config))))).map Except.ok = _
    rw [collectModules_total _ hdec]
    rfl
  · rfl

theorem list_drops_undecodable_witness :
    (∀ c ∈ [ContainerSummary.mk "nginx:latest" [("l", "v")] ["/m1"],
        ContainerSummary.mk "" [] ["/bad"],
        ContainerSummary.mk "redis" [] []], c.names.head? ≠ some "") ∧
    (ModuleRuntime.list cfgNonEmptyImage
        [ContainerSummary.mk "nginx:latest" [("l", "v")] ["/m1"],
          ContainerSummary.mk "" [] ["/bad"],
          ContainerSummary.mk "redis" [] []]).2 =
      some (Except.ok
        (([ContainerSummary.mk "nginx:latest" [("l", "v")] ["/m1"],
            ContainerSummary.mk "" [] ["/bad"],
            ContainerSummary.mk "redis" [] []].filterMap (fun c =>
          (cfgNonEmptyImage c.image
            (ContainerCreateBody.new.with_labels c.labels)).map
            (fun config => (c, config)))).map
          (fun p => DockerModule.new (deriveNameTotal p.1.names) p.2))) :=
  ⟨by decide,
    (list_drops_undecodable cfgNonEmptyImage
      [ContainerSummary.mk "nginx:latest" [("l", "v")] ["/m1"],
        ContainerSummary.mk "" [] ["/bad"],
        ContainerSummary.mk "redis" [] []] (by decide)).1⟩

/-! ## C10 -/

/-- C10: the display-name derivation of `list()` is not total: it reaches
the panic branch (`none`) exactly when the first reported name is the
empty string — `&s[1..]` is then out of bounds — and a listing containing
such a record makes the whole pipeline hit that branch, so the stripping
is only safe when every reported first name is non-empty. -/
theorem list_name_slice_partial :
    deriveName [""] = none ∧
    (∀ names : List String, deriveName names = none ↔
      names.head? = some "") ∧
    (ModuleRuntime.list cfgAlways
      [ContainerSummary.mk "img" [] [""]]).2 = none := by
  refine ⟨rfl, ?_, rfl⟩
  intro names
  cases names with
  | nil => simp [deriveName]
  | cons s rest => by_cases h : s = "" <;> simp [deriveName, h]
